import Mathlib

/-!
Verification of the utilization computation engine of
`utilization_from_sacct.py` (slurm_utilization repository).

The shallow embedding below translates the pure computational core of the
script into Lean definitions:

* pandas dataframes become `List Job` (one `Job` per row of the cleaned
  sacct dataframe, carrying the columns the engine reads);
* Python floats become `ℚ` (all quantities appearing in the claims are
  produced by exact float operations, so rational arithmetic agrees with
  the float computation on every claim-relevant value);
* the `KeyError` a dict lookup raises becomes an `Option`/`Except`
  result; the numerators of the utilization divisions are pandas
  `Series.sum()` results — numpy.float64 scalars — so division by a
  zero capacity follows IEEE semantics (an infinity, or NaN for a zero
  numerator, with only a RuntimeWarning, never an exception), modelled
  by the `NpFloat` result type;
* the regex extractions `billing=(\d+)` and `gres/gpu=(\d+)` applied to the
  `AllocTRES` column in `main()` are abstracted as the numeric fields
  `Billing` and `ReqGPUS` of a `Job`, and `float(amt)` applied to the
  numeric prefix of a `ReqMem` string is abstracted as the field
  `ReqMemAmt`; the suffix character is kept verbatim (`ReqMemUnit`);
* the substring test `str.contains('gres/gpu=', regex=False)` is embedded
  as an executable substring search on the raw `ReqTRES` string.

Source-line references in the doc comments point into
`utilization_from_sacct.py`.
-/

/-- Conversion factors from Gibi, lines 40-43: `KIBI = 1./(1024. * 1024.)`. -/
def KIBI : ℚ := 1 / (1024 * 1024)

/-- Line 41: `MEBI = 1./1024.`. -/
def MEBI : ℚ := 1 / 1024

/-- Line 42: `GIBI = 1.`. -/
def GIBI : ℚ := 1

/-- Line 43: `TEBI = 1024.`. -/
def TEBI : ℚ := 1024

/-- Line 46: `SECS_PER_DAY = 86400.`. -/
def SECS_PER_DAY : ℚ := 86400

/-- Line 49: `SECS_PER_HOUR = 3600.`. -/
def SECS_PER_HOUR : ℚ := 3600

/-- Line 58: `HOURS_PER_DAY = 24.`. -/
def HOURS_PER_DAY : ℚ := 24

/-- Line 66: `CPUS_PER_NODE = {'def': 48., 'gpu': 48., 'bm': 48.}`. -/
def CPUS_PER_NODE_def : ℚ := 48

/-- Line 66, key `'gpu'`. -/
def CPUS_PER_NODE_gpu : ℚ := 48

/-- Line 66, key `'bm'`. -/
def CPUS_PER_NODE_bm : ℚ := 48

/-- Line 70: `MEM_PER_NODE = {'def': 189., 'gpu': 189., 'bm': 1510.}`. -/
def MEM_PER_NODE_def : ℚ := 189

/-- Line 70, key `'gpu'`. -/
def MEM_PER_NODE_gpu : ℚ := 189

/-- Line 70, key `'bm'`. -/
def MEM_PER_NODE_bm : ℚ := 1510

/-- Line 73: `GPUS_PER_NODE = 4.`. -/
def GPUS_PER_NODE : ℚ := 4

/-- Line 76: `BILLING_PER_NODE = {'def': 48., 'gpu': 43. * 4., 'bm': 68. * 1.51}`. -/
def BILLING_PER_NODE_def : ℚ := 48

/-- Line 76, key `'gpu'`: `43. * 4.`. -/
def BILLING_PER_NODE_gpu : ℚ := 43 * 4

/-- Line 76, key `'bm'`: `68. * 1.51`. -/
def BILLING_PER_NODE_bm : ℚ := 68 * (151 / 100)

/-- Line 79: `NODES_PER_PARTITION = {'def': 74., 'gpu': 12., 'bm': 2.}`. -/
def NODES_PER_PARTITION_def : ℚ := 74

/-- Line 79, key `'gpu'`. -/
def NODES_PER_PARTITION_gpu : ℚ := 12

/-- Line 79, key `'bm'`. -/
def NODES_PER_PARTITION_bm : ℚ := 2

/-- Lines 92-95: `class UtilMethod(Enum)` with the three accounting methods. -/
inductive UtilMethod where
  | BY_RESOURCE
  | BY_NODE
  | BY_BILLING
deriving DecidableEq

/-- Lines 98-101: `nodedays(partition, period)` returns
`NODES_PER_PARTITION[partition] * period / SECS_PER_DAY`; the dictionary
lookup is supplied here as the first argument (the three call sites pass
the three `NODES_PER_PARTITION_*` constants). -/
def nodedays (nodesInPart period : ℚ) : ℚ :=
  nodesInPart * period / SECS_PER_DAY

/-- Lines 113-116: `unit_dict = dict(zip(prefix_list, unit_list))` with
`unit_list = [KIBI, MEBI, GIBI, TEBI, GIBI]` over the suffix characters
K, M, G, T, ?.  A lookup of any other character raises `KeyError`,
modelled by `none`. -/
def unit_dict (c : Char) : Option ℚ :=
  if c = 'K' then some KIBI
  else if c = 'M' then some MEBI
  else if c = 'G' then some GIBI
  else if c = 'T' then some TEBI
  else if c = '?' then some GIBI
  else none

/-- Lines 104-121: `convert_to_GiB(memstr)` takes `unit = memstr[-1]`,
`amt = memstr[:-1]` and returns `float(amt) * unit_dict[unit]`.  The
string split and the `float` parse are abstracted: `amt` is the parsed
numeric prefix and `unit` the final character.  `none` models the
`KeyError` raised by `unit_dict[unit]` for an unknown suffix. -/
def convert_to_GiB (amt : ℚ) (unit : Char) : Option ℚ :=
  (unit_dict unit).map (fun u => amt * u)

/-- One row of the cleaned sacct dataframe (columns selected at line 896,
with `Billing` and `SU` derived at lines 899-904).  `ReqMemAmt` and
`ReqMemUnit` are the numeric prefix and final character of the raw
`ReqMem` string; `ReqGPUS` and `Billing` are the numbers the regexes at
lines 215 and 899 extract from `AllocTRES`. -/
structure Job where
  JobID : String
  Account : String
  Partition : String
  Elapsed : ℚ
  ReqCPUS : ℚ
  ReqMemAmt : ℚ
  ReqMemUnit : Char
  ReqTRES : String
  ReqGPUS : ℚ
  Billing : ℚ
deriving DecidableEq

/-- Lines 902-904: `SU = Elapsed * Billing / SECS_PER_HOUR` (the product
of the `Elapsed` and `Billing` columns, divided by 3600). -/
def jobSU (j : Job) : ℚ :=
  j.Elapsed * j.Billing / SECS_PER_HOUR

/-- `memGiB j` is `convert_to_GiB` applied to the raw `ReqMem` field of a
row, as done by `df['ReqMem'].apply(convert_to_GiB)` (lines 271, 329,
489); the `KeyError` on an unknown suffix becomes `Except.error`. -/
def memGiB (j : Job) : Except String ℚ :=
  match convert_to_GiB j.ReqMemAmt j.ReqMemUnit with
  | some v => Except.ok v
  | none => Except.error "KeyError"

/-- Apply `convert_to_GiB` to every row in order, pairing each job with
its memory in GiB (the in-place column rewrite of the Python code); the
first `KeyError` aborts, as `Series.apply` does. -/
def convertMems : List Job → Except String (List (Job × ℚ))
  | [] => Except.ok []
  | j :: t =>
      match memGiB j with
      | Except.error e => Except.error e
      | Except.ok m =>
          match convertMems t with
          | Except.error e => Except.error e
          | Except.ok c => Except.ok ((j, m) :: c)

/-- Substring search on character lists: true iff `needle` occurs
contiguously in the second argument. -/
def containsSub (needle : List Char) : List Char → Bool
  | [] => needle.isEmpty
  | c :: t => needle.isPrefixOf (c :: t) || containsSub needle t

/-- `strContains hay needle` embeds the pandas test
`hay.str.contains(needle, regex=False)`. -/
def strContains (hay needle : String) : Bool :=
  containsSub needle.toList hay.toList

/-- Line 549: `sacct_df[(Partition == 'def') | (Partition == 'long')]`. -/
def defSub (jobs : List Job) : List Job :=
  jobs.filter (fun j => j.Partition == "def" || j.Partition == "long")

/-- Line 550: `sacct_df[(Partition == 'gpu') | (Partition == 'gpulong')]`. -/
def gpuSub (jobs : List Job) : List Job :=
  jobs.filter (fun j => j.Partition == "gpu" || j.Partition == "gpulong")

/-- Line 551: `sacct_df[(Partition == 'bm')]`. -/
def bmSub (jobs : List Job) : List Job :=
  jobs.filter (fun j => j.Partition == "bm")

/-- Line 197: keep only rows whose `ReqTRES` contains `gres/gpu=`
(some jobs in the gpu partition did not request `gres/gpu`). -/
def gpuTresFilter (jobs : List Job) : List Job :=
  jobs.filter (fun j => strContains j.ReqTRES "gres/gpu=")

/-- Line 492: FracNode of a standard-partition job,
`max(ReqCPUS / CPUS_PER_NODE['def'], ReqMem / MEM_PER_NODE['def'])`. -/
def fracNodeDef (cpus memQ : ℚ) : ℚ :=
  max (cpus / CPUS_PER_NODE_def) (memQ / MEM_PER_NODE_def)

/-- Line 274: FracNode of a gpu-partition job, the three-way Python
`max(ReqCPUS / CPUS_PER_NODE['gpu'], ReqMem / MEM_PER_NODE['gpu'], ReqGPUS / GPUS_PER_NODE)`. -/
def fracNodeGpu (cpus memQ gpus : ℚ) : ℚ :=
  max (max (cpus / CPUS_PER_NODE_gpu) (memQ / MEM_PER_NODE_gpu)) (gpus / GPUS_PER_NODE)

/-- Line 394: FracNode of a bigmem-partition job,
`max(ReqCPUS / CPUS_PER_NODE['bm'], ReqMem / MEM_PER_NODE['bm'])`. -/
def fracNodeBm (cpus memQ : ℚ) : ℚ :=
  max (cpus / CPUS_PER_NODE_bm) (memQ / MEM_PER_NODE_bm)

/-- IEEE-754 values produced by numpy.float64 arithmetic.  Every
numerator at the utilization division sites (lines 259, 281, 310, 376,
412, 435, 477, 507, 528) is a pandas `Series.sum()` result — a
numpy.float64 scalar — so dividing it by a zero capacity yields an
infinity (or NaN for a zero numerator) with only a RuntimeWarning; it
does not raise. -/
inductive NpFloat where
  | fin (q : ℚ)
  | pinf
  | ninf
  | nan
deriving DecidableEq

/-- numpy.float64 division: the exact quotient on a nonzero divisor; on
a zero divisor, silently the IEEE special value. -/
def npdiv (a b : ℚ) : NpFloat :=
  if b = 0 then
    (if a = 0 then NpFloat.nan else if 0 < a then NpFloat.pinf else NpFloat.ninf)
  else NpFloat.fin (a / b)

/-- The trailing `* 100.` applied to every utilization ratio; the IEEE
special values are preserved (100 is finite and positive). -/
def npmul100 : NpFloat → NpFloat
  | NpFloat.fin q => NpFloat.fin (q * 100)
  | NpFloat.pinf => NpFloat.pinf
  | NpFloat.ninf => NpFloat.ninf
  | NpFloat.nan => NpFloat.nan

/-- The `if not uptime_secs:` idiom (lines 238-246, 331, 347, 447):
a missing uptime override, and also an uptime of `0` (Python falsiness),
fall back to the calendar length of the reporting period. -/
def effectivePeriod (uptimeSecs : Option ℚ) (calPeriodSecs : ℚ) : ℚ :=
  match uptimeSecs with
  | none => calPeriodSecs
  | some u => if u = 0 then calPeriodSecs else u

/-- Line 462 and line 467: the `CPUseconds` column summed,
`(Elapsed * ReqCPUS).sum()`. -/
def cpuSecondsTotal (jobs : List Job) : ℚ :=
  (jobs.map (fun j => j.Elapsed * j.ReqCPUS)).sum

/-- Lines 223 and 251: the `GPUseconds` column summed,
`(Elapsed * ReqGPUS).sum()`. -/
def gpuSecondsTotal (jobs : List Job) : ℚ :=
  (jobs.map (fun j => j.Elapsed * j.ReqGPUS)).sum

/-- Lines 300, 425, 518: the `SU` column summed, `df['SU'].sum()`.  This
is the per-class total the calculator computes under BY_BILLING before
scaling it to SU-days, and also the quantity the account aggregator
(lines 676-688) groups. -/
def suTotal (jobs : List Job) : ℚ :=
  (jobs.map jobSU).sum

/-- Line 495: `FracNodeSeconds = Elapsed * FracNode` for a standard-node
row whose memory has been converted to GiB. -/
def fracNodeSecDef (p : Job × ℚ) : ℚ :=
  p.1.Elapsed * fracNodeDef p.1.ReqCPUS p.2

/-- Line 277: `FracNodeSeconds` for a gpu-node row. -/
def fracNodeSecGpu (p : Job × ℚ) : ℚ :=
  p.1.Elapsed * fracNodeGpu p.1.ReqCPUS p.2 p.1.ReqGPUS

/-- Line 397: `FracNodeSeconds` for a bigmem-node row. -/
def fracNodeSecBm (p : Job × ℚ) : ℚ :=
  p.1.Elapsed * fracNodeBm p.1.ReqCPUS p.2

/-- Line 497: `def_sacct_df['FracNodeSeconds'].sum()`. -/
def fracNodeSecondsTotalDef (c : List (Job × ℚ)) : ℚ :=
  (c.map fracNodeSecDef).sum

/-- Line 279: `gpu_sacct_df['FracNodeSeconds'].sum()`. -/
def fracNodeSecondsTotalGpu (c : List (Job × ℚ)) : ℚ :=
  (c.map fracNodeSecGpu).sum

/-- Line 402: `bm_sacct_df['FracNodeSeconds'].sum()`. -/
def fracNodeSecondsTotalBm (c : List (Job × ℚ)) : ℚ :=
  (c.map fracNodeSecBm).sum

/-- Line 364 and line 374: the `MemSeconds` column summed,
`(Elapsed * ReqMem).sum()` over converted memory values. -/
def memSecondsTotal (c : List (Job × ℚ)) : ℚ :=
  (c.map (fun p => p.1.Elapsed * p.2)).sum

/-- Lines 339 and 342: the bigmem BY_RESOURCE capacity
`max_memseconds = 2. * 1546. * <seconds>` — the node count and the
memory per node (1546 GiB) are hard-coded at this call site. -/
def bmMaxMemseconds (periodSecs : ℚ) : ℚ :=
  2 * 1546 * periodSecs

/-- Capacity of the standard partition per method, as a function of
`max_nodedays`: `max_cpudays` (line 466), `max_nodedays` itself
(lines 497-507), `max_su` (line 517). -/
def capDef (m : UtilMethod) (maxNodedays : ℚ) : ℚ :=
  match m with
  | UtilMethod.BY_RESOURCE => CPUS_PER_NODE_def * maxNodedays
  | UtilMethod.BY_NODE => maxNodedays
  | UtilMethod.BY_BILLING => BILLING_PER_NODE_def * maxNodedays

/-- Capacity of the gpu partition per method: `max_gpudays` (line 249),
`max_nodedays` (line 281), `max_su` (line 299). -/
def capGpu (m : UtilMethod) (maxNodedays : ℚ) : ℚ :=
  match m with
  | UtilMethod.BY_RESOURCE => GPUS_PER_NODE * maxNodedays
  | UtilMethod.BY_NODE => maxNodedays
  | UtilMethod.BY_BILLING => BILLING_PER_NODE_gpu * maxNodedays

/-- Capacity of the bigmem partition per method: `max_memseconds`
(lines 339/342), `max_nodedays` (line 355/358), `max_su` (line 424). -/
def capBm (m : UtilMethod) (periodSecs : ℚ) : ℚ :=
  match m with
  | UtilMethod.BY_RESOURCE => bmMaxMemseconds periodSecs
  | UtilMethod.BY_NODE => nodedays NODES_PER_PARTITION_bm periodSecs
  | UtilMethod.BY_BILLING => BILLING_PER_NODE_bm * nodedays NODES_PER_PARTITION_bm periodSecs

/-- Lines 443-533: `utilization_def` on the standard-partition rows.
Returns the utilization percentage as a numpy.float64 value; an
`Except.error` models an uncaught Python exception (the `KeyError` from
`convert_to_GiB` under BY_NODE). -/
def utilization_def (jobs : List Job) (uptimeSecs : Option ℚ) (calPeriodSecs : ℚ)
    (m : UtilMethod) : Except String NpFloat :=
  let nd := nodedays NODES_PER_PARTITION_def (effectivePeriod uptimeSecs calPeriodSecs)
  match m with
  | UtilMethod.BY_RESOURCE =>
      Except.ok (npmul100 (npdiv (cpuSecondsTotal jobs / SECS_PER_DAY)
        (capDef UtilMethod.BY_RESOURCE nd)))
  | UtilMethod.BY_NODE =>
      match convertMems jobs with
      | Except.error e => Except.error e
      | Except.ok c =>
          Except.ok (npmul100 (npdiv (fracNodeSecondsTotalDef c / SECS_PER_DAY)
            (capDef UtilMethod.BY_NODE nd)))
  | UtilMethod.BY_BILLING =>
      Except.ok (npmul100 (npdiv (suTotal jobs / HOURS_PER_DAY)
        (capDef UtilMethod.BY_BILLING nd)))

/-- Lines 183-315: `utilization_gpu` on the gpu-partition rows.  The
`gres/gpu=` filter (line 197) is applied first, for every method. -/
def utilization_gpu (jobs : List Job) (uptimeSecs : Option ℚ) (calPeriodSecs : ℚ)
    (m : UtilMethod) : Except String NpFloat :=
  let df := gpuTresFilter jobs
  let nd := nodedays NODES_PER_PARTITION_gpu (effectivePeriod uptimeSecs calPeriodSecs)
  match m with
  | UtilMethod.BY_RESOURCE =>
      Except.ok (npmul100 (npdiv (gpuSecondsTotal df / SECS_PER_DAY)
        (capGpu UtilMethod.BY_RESOURCE nd)))
  | UtilMethod.BY_NODE =>
      match convertMems df with
      | Except.error e => Except.error e
      | Except.ok c =>
          Except.ok (npmul100 (npdiv (fracNodeSecondsTotalGpu c / SECS_PER_DAY)
            (capGpu UtilMethod.BY_NODE nd)))
  | UtilMethod.BY_BILLING =>
      Except.ok (npmul100 (npdiv (suTotal df / HOURS_PER_DAY)
        (capGpu UtilMethod.BY_BILLING nd)))

/-- Lines 318-440: `utilization_bm` on the bigmem-partition rows.  The
memory conversion (line 329) happens before the method branch, for every
method. -/
def utilization_bm (jobs : List Job) (uptimeSecs : Option ℚ) (calPeriodSecs : ℚ)
    (m : UtilMethod) : Except String NpFloat :=
  match convertMems jobs with
  | Except.error e => Except.error e
  | Except.ok c =>
      let eff := effectivePeriod uptimeSecs calPeriodSecs
      match m with
      | UtilMethod.BY_RESOURCE =>
          Except.ok (npmul100 (npdiv (memSecondsTotal c)
            (capBm UtilMethod.BY_RESOURCE eff)))
      | UtilMethod.BY_NODE =>
          Except.ok (npmul100 (npdiv (fracNodeSecondsTotalBm c / SECS_PER_DAY)
            (capBm UtilMethod.BY_NODE eff)))
      | UtilMethod.BY_BILLING =>
          Except.ok (npmul100 (npdiv (suTotal jobs / HOURS_PER_DAY)
            (capBm UtilMethod.BY_BILLING eff)))

/-- One row of the concatenated usage dataframe built by
`usage_by_account` (lines 603-605 / 676-678): account, the `NodeType`
tag assigned at lines 553-555, and the per-job consumption quantity. -/
structure UsageRow where
  account : String
  nodeType : String
  qty : ℚ
deriving DecidableEq

/-- Lines 676-678 (BY_BILLING): `pd.concat` of the three per-class
dataframes restricted to `['Account', 'NodeType', 'SU']`. -/
def usageRowsSU (defJ gpuJ bmJ : List Job) : List UsageRow :=
  defJ.map (fun j => UsageRow.mk j.Account "standard" (jobSU j)) ++
  gpuJ.map (fun j => UsageRow.mk j.Account "gpu" (jobSU j)) ++
  bmJ.map (fun j => UsageRow.mk j.Account "bigmem" (jobSU j))

/-- Lines 603-608 (BY_NODE): `pd.concat` of the three per-class
dataframes with `NodeHours = FracNodeSeconds / SECS_PER_HOUR`. -/
def usageRowsNode (defC gpuC bmC : List (Job × ℚ)) : List UsageRow :=
  defC.map (fun p => UsageRow.mk p.1.Account "standard" (fracNodeSecDef p / SECS_PER_HOUR)) ++
  gpuC.map (fun p => UsageRow.mk p.1.Account "gpu" (fracNodeSecGpu p / SECS_PER_HOUR)) ++
  bmC.map (fun p => UsageRow.mk p.1.Account "bigmem" (fracNodeSecBm p / SECS_PER_HOUR))

/-- What `usage_by_account` (lines 572-730) aggregates, per method: the
NodeHours rows under BY_NODE (lines 602-608), the SU rows under
BY_BILLING (lines 675-678), and nothing at all under BY_RESOURCE —
lines 673-674 print `No account utilization by resource` and build no
usage table. -/
def usageRowsOf (m : UtilMethod) (defJ gpuJ bmJ : List Job)
    (defC gpuC bmC : List (Job × ℚ)) : List UsageRow :=
  match m with
  | UtilMethod.BY_NODE => usageRowsNode defC gpuC bmC
  | UtilMethod.BY_RESOURCE => []
  | UtilMethod.BY_BILLING => usageRowsSU defJ gpuJ bmJ

/-- `groupby(['Account', 'NodeType']).sum()` (lines 613/623/686): the
consumption attributed to one (account, partition class) cell. -/
def groupQty (rows : List UsageRow) (a nt : String) : ℚ :=
  ((rows.filter (fun r => r.account == a && r.nodeType == nt)).map UsageRow.qty).sum

/-- The distinct accounts appearing in the usage dataframe (the group
keys of the pandas groupby). -/
def accountsOf (rows : List UsageRow) : List String :=
  (rows.map UsageRow.account).dedup

/-- Sum over all accounts of the consumption attributed to one partition
class: the column total of the pivot table built at lines 624/693. -/
def classTotalByAccount (rows : List UsageRow) (nt : String) : ℚ :=
  ((accountsOf rows).map (fun a => groupQty rows a nt)).sum

/-- Line 884: `drop_duplicates(subset=['JobID'])` with the default
`keep='first'` — recursion with the set of already-seen JobIDs. -/
def dedupAux (seen : List String) : List Job → List Job
  | [] => []
  | j :: t => if j.JobID ∈ seen then dedupAux seen t else j :: dedupAux (j.JobID :: seen) t

/-- Deduplication of the cleaned record set by job identifier, first
occurrence kept (line 884). -/
def dedupJobs (jobs : List Job) : List Job :=
  dedupAux [] jobs

/-- A concrete gpu-partition job: elapsed one hour, allocated billing
weight 48 (so its SU column is 48), one GPU requested. -/
def jgpu0 : Job :=
  { JobID := "200", Account := "bprj", Partition := "gpu", Elapsed := 3600,
    ReqCPUS := 12, ReqMemAmt := 48, ReqMemUnit := 'G',
    ReqTRES := "billing=48,cpu=12,gres/gpu=1,mem=48G,node=1", ReqGPUS := 1, Billing := 48 }

/-- A concrete bigmem-partition job requesting zero memory (`ReqMem` of
`0G`) and a full node of CPUs, running for one day. -/
def jbm0 : Job :=
  { JobID := "100", Account := "aprj", Partition := "bm", Elapsed := 86400,
    ReqCPUS := 48, ReqMemAmt := 0, ReqMemUnit := 'G',
    ReqTRES := "billing=48,cpu=48,mem=0G,node=1", ReqGPUS := 0, Billing := 48 }

/-- A concrete job in a partition outside the three modelled classes. -/
def jmaint : Job :=
  { JobID := "300", Account := "cprj", Partition := "maint", Elapsed := 60,
    ReqCPUS := 1, ReqMemAmt := 1, ReqMemUnit := 'G',
    ReqTRES := "billing=1,cpu=1,mem=1G,node=1", ReqGPUS := 0, Billing := 1 }

/-- Two concrete jobs with distinct job identifiers. -/
def jw1 : Job :=
  { JobID := "400", Account := "dprj", Partition := "def", Elapsed := 10,
    ReqCPUS := 1, ReqMemAmt := 1, ReqMemUnit := 'G',
    ReqTRES := "billing=1,cpu=1,mem=1G,node=1", ReqGPUS := 0, Billing := 1 }

/-- Second of the two distinct-identifier jobs. -/
def jw2 : Job :=
  { JobID := "401", Account := "dprj", Partition := "def", Elapsed := 20,
    ReqCPUS := 2, ReqMemAmt := 2, ReqMemUnit := 'G',
    ReqTRES := "billing=2,cpu=2,mem=2G,node=1", ReqGPUS := 0, Billing := 2 }

/-!  Helper lemmas about grouping, filtering and summation. -/

theorem sum_map_filter_split (l : List UsageRow) (p : UsageRow → Bool) :
    ((l.filter p).map UsageRow.qty).sum + ((l.filter (fun r => !(p r))).map UsageRow.qty).sum
      = (l.map UsageRow.qty).sum := by
  induction l with
  | nil => simp
  | cons h t ih =>
    by_cases hp : p h
    · simp only [List.filter_cons, hp, Bool.not_true, if_pos, List.map_cons, List.sum_cons,
        Bool.false_eq_true, if_false]
      linarith [ih]
    · simp only [List.filter_cons, hp, Bool.not_false, List.map_cons, List.sum_cons,
        Bool.false_eq_true, if_false, if_pos]
      linarith [ih]

theorem filter_account_of_filter_ne (l : List UsageRow) (b a : String) (hba : b ≠ a) :
    (l.filter (fun r => !(r.account == a))).filter (fun r => r.account == b)
      = l.filter (fun r => r.account == b) := by
  induction l with
  | nil => rfl
  | cons r t ih =>
    cases ha : (r.account == a) <;> cases hb : (r.account == b)
    · simp [List.filter_cons, ha, hb, ih]
    · simp [List.filter_cons, ha, hb, ih]
    · simp [List.filter_cons, ha, hb, ih]
    · have h1 : r.account = a := by simpa using ha
      have h2 : r.account = b := by simpa using hb
      exact absurd (h2.symm.trans h1) hba

theorem group_cover (rows : List UsageRow) (as : List String) (hnd : as.Nodup)
    (hcov : ∀ r ∈ rows, r.account ∈ as) :
    (as.map (fun a => ((rows.filter (fun r => r.account == a)).map UsageRow.qty).sum)).sum
      = (rows.map UsageRow.qty).sum := by
  induction as generalizing rows with
  | nil =>
    cases rows with
    | nil => simp
    | cons r t => exact absurd (hcov r (List.mem_cons_self r t)) (List.not_mem_nil _)
  | cons a as ih =>
    have hsplit := sum_map_filter_split rows (fun r => r.account == a)
    have hnd' : as.Nodup := (List.nodup_cons.mp hnd).2
    have hna : a ∉ as := (List.nodup_cons.mp hnd).1
    have hcov' : ∀ r ∈ rows.filter (fun r => !(r.account == a)), r.account ∈ as := by
      intro r hr
      have hmem := List.mem_filter.mp hr
      have h2 : ¬ (r.account = a) := by
        have := hmem.2
        simpa using this
      rcases List.mem_cons.mp (hcov r hmem.1) with h | h
      · exact absurd h h2
      · exact h
    have hmaps : as.map (fun b => ((rows.filter (fun r => r.account == b)).map UsageRow.qty).sum)
        = as.map (fun b =>
            (((rows.filter (fun r => !(r.account == a))).filter
              (fun r => r.account == b)).map UsageRow.qty).sum) := by
      refine List.map_congr_left (fun b hb => ?_)
      have hba : b ≠ a := fun h => hna (h ▸ hb)
      rw [filter_account_of_filter_ne rows b a hba]
    simp only [List.map_cons, List.sum_cons, hmaps,
      ih (rows.filter (fun r => !(r.account == a))) hnd' hcov']
    linarith [hsplit]

theorem group_swap (rows : List UsageRow) (a nt : String) :
    rows.filter (fun r => r.account == a && r.nodeType == nt)
      = (rows.filter (fun r => r.nodeType == nt)).filter (fun r => r.account == a) := by
  rw [List.filter_filter]

theorem classTotal_eq (rows : List UsageRow) (nt : String) :
    classTotalByAccount rows nt
      = ((rows.filter (fun r => r.nodeType == nt)).map UsageRow.qty).sum := by
  unfold classTotalByAccount groupQty accountsOf
  have hmaps : (rows.map UsageRow.account).dedup.map
        (fun a => ((rows.filter (fun r => r.account == a && r.nodeType == nt)).map
          UsageRow.qty).sum)
      = (rows.map UsageRow.account).dedup.map
        (fun a => (((rows.filter (fun r => r.nodeType == nt)).filter
          (fun r => r.account == a)).map UsageRow.qty).sum) := by
    refine List.map_congr_left (fun a _ => ?_)
    rw [group_swap]
  rw [hmaps]
  refine group_cover _ _ (List.nodup_dedup _) ?_
  intro r hr
  have : r ∈ rows := (List.mem_filter.mp hr).1
  exact List.mem_dedup.mpr (List.mem_map.mpr ⟨r, this, rfl⟩)

theorem filter_map_nt_eq (g : Job → UsageRow) (l : List Job) (nt : String)
    (h : ∀ j, (g j).nodeType = nt) :
    (l.map g).filter (fun r => r.nodeType == nt) = l.map g := by
  induction l with
  | nil => rfl
  | cons j t ih => simp [List.filter_cons, h j, ih]

theorem filter_map_nt_ne (g : Job → UsageRow) (l : List Job) (nt : String)
    (h : ∀ j, ¬ ((g j).nodeType = nt)) :
    (l.map g).filter (fun r => r.nodeType == nt) = [] := by
  induction l with
  | nil => rfl
  | cons j t ih => simp [List.filter_cons, h j, ih]

theorem filter_mapP_nt_eq (g : Job × ℚ → UsageRow) (l : List (Job × ℚ)) (nt : String)
    (h : ∀ p, (g p).nodeType = nt) :
    (l.map g).filter (fun r => r.nodeType == nt) = l.map g := by
  induction l with
  | nil => rfl
  | cons p t ih => simp [List.filter_cons, h p, ih]

theorem filter_mapP_nt_ne (g : Job × ℚ → UsageRow) (l : List (Job × ℚ)) (nt : String)
    (h : ∀ p, ¬ ((g p).nodeType = nt)) :
    (l.map g).filter (fun r => r.nodeType == nt) = [] := by
  induction l with
  | nil => rfl
  | cons p t ih => simp [List.filter_cons, h p, ih]

theorem sum_map_div (l : List (Job × ℚ)) (f : Job × ℚ → ℚ) (c : ℚ) :
    (l.map (fun p => f p / c)).sum = (l.map f).sum / c := by
  induction l with
  | nil => simp
  | cons h t ih => simp [ih, add_div]

/-!  Claim theorems. -/

/-- C2 amended: only BY_BILLING and BY_NODE aggregate by account
(BY_BILLING groups the `SU` column, BY_NODE the `NodeHours` column);
for these two, the sum over all accounts of the per-account consumption
attributed to one partition class equals — in the aggregator's own unit
(raw SU; node-hours, i.e. `FracNodeSeconds` over 3600) — the total the
utilization calculator sums independently for that class (`suTotal`,
the `df['SU'].sum()` of the three calculators, and
`fracNodeSecondsTotal*`, their `df['FracNodeSeconds'].sum()`): the
aggregation neither drops nor double-counts any job.  Under BY_RESOURCE
the aggregator emits no per-account consumption at all (lines 673-674),
so the sum over accounts is 0 for every class regardless of the jobs,
and does not equal a nonzero class total. -/
theorem usage_by_account_conservation (defJ gpuJ bmJ : List Job)
    (defC gpuC bmC : List (Job × ℚ)) :
    classTotalByAccount (usageRowsOf UtilMethod.BY_BILLING defJ gpuJ bmJ defC gpuC bmC)
      "standard" = suTotal defJ ∧
    classTotalByAccount (usageRowsOf UtilMethod.BY_BILLING defJ gpuJ bmJ defC gpuC bmC)
      "gpu" = suTotal gpuJ ∧
    classTotalByAccount (usageRowsOf UtilMethod.BY_BILLING defJ gpuJ bmJ defC gpuC bmC)
      "bigmem" = suTotal bmJ ∧
    classTotalByAccount (usageRowsOf UtilMethod.BY_NODE defJ gpuJ bmJ defC gpuC bmC)
      "standard" = fracNodeSecondsTotalDef defC / SECS_PER_HOUR ∧
    classTotalByAccount (usageRowsOf UtilMethod.BY_NODE defJ gpuJ bmJ defC gpuC bmC)
      "gpu" = fracNodeSecondsTotalGpu gpuC / SECS_PER_HOUR ∧
    classTotalByAccount (usageRowsOf UtilMethod.BY_NODE defJ gpuJ bmJ defC gpuC bmC)
      "bigmem" = fracNodeSecondsTotalBm bmC / SECS_PER_HOUR ∧
    (∀ nt : String,
      classTotalByAccount (usageRowsOf UtilMethod.BY_RESOURCE defJ gpuJ bmJ defC gpuC bmC)
        nt = 0) := by
  simp only [usageRowsOf]
  refine ⟨?_, ?_, ?_, ?_, ?_, ?_, ?_⟩
  · rw [classTotal_eq]
    unfold usageRowsSU
    rw [List.filter_append, List.filter_append,
      filter_map_nt_eq (fun j => UsageRow.mk j.Account "standard" (jobSU j)) defJ "standard"
        (fun j => rfl),
      filter_map_nt_ne (fun j => UsageRow.mk j.Account "gpu" (jobSU j)) _ _
        (fun j => by simp),
      filter_map_nt_ne (fun j => UsageRow.mk j.Account "bigmem" (jobSU j)) _ _
        (fun j => by simp)]
    simp only [List.append_nil, List.nil_append, suTotal, List.map_map]
    rfl
  · rw [classTotal_eq]
    unfold usageRowsSU
    rw [List.filter_append, List.filter_append,
      filter_map_nt_ne (fun j => UsageRow.mk j.Account "standard" (jobSU j)) _ _
        (fun j => by simp),
      filter_map_nt_eq (fun j => UsageRow.mk j.Account "gpu" (jobSU j)) gpuJ "gpu"
        (fun j => rfl),
      filter_map_nt_ne (fun j => UsageRow.mk j.Account "bigmem" (jobSU j)) _ _
        (fun j => by simp)]
    simp only [List.append_nil, List.nil_append, suTotal, List.map_map]
    rfl
  · rw [classTotal_eq]
    unfold usageRowsSU
    rw [List.filter_append, List.filter_append,
      filter_map_nt_ne (fun j => UsageRow.mk j.Account "standard" (jobSU j)) _ _
        (fun j => by simp),
      filter_map_nt_ne (fun j => UsageRow.mk j.Account "gpu" (jobSU j)) _ _
        (fun j => by simp),
      filter_map_nt_eq (fun j => UsageRow.mk j.Account "bigmem" (jobSU j)) bmJ "bigmem"
        (fun j => rfl)]
    simp only [List.append_nil, List.nil_append, suTotal, List.map_map]
    rfl
  · rw [classTotal_eq]
    unfold usageRowsNode
    rw [List.filter_append, List.filter_append,
      filter_mapP_nt_eq (fun p => UsageRow.mk p.1.Account "standard" (fracNodeSecDef p / SECS_PER_HOUR))
        defC "standard" (fun p => rfl),
      filter_mapP_nt_ne (fun p => UsageRow.mk p.1.Account "gpu" (fracNodeSecGpu p / SECS_PER_HOUR)) _ _
        (fun p => by simp),
      filter_mapP_nt_ne (fun p => UsageRow.mk p.1.Account "bigmem" (fracNodeSecBm p / SECS_PER_HOUR)) _ _
        (fun p => by simp)]
    rw [fracNodeSecondsTotalDef, ← sum_map_div defC fracNodeSecDef SECS_PER_HOUR]
    simp only [List.append_nil, List.nil_append, List.map_map]
    rfl
  · rw [classTotal_eq]
    unfold usageRowsNode
    rw [List.filter_append, List.filter_append,
      filter_mapP_nt_ne (fun p => UsageRow.mk p.1.Account "standard" (fracNodeSecDef p / SECS_PER_HOUR)) _ _
        (fun p => by simp),
      filter_mapP_nt_eq (fun p => UsageRow.mk p.1.Account "gpu" (fracNodeSecGpu p / SECS_PER_HOUR))
        gpuC "gpu" (fun p => rfl),
      filter_mapP_nt_ne (fun p => UsageRow.mk p.1.Account "bigmem" (fracNodeSecBm p / SECS_PER_HOUR)) _ _
        (fun p => by simp)]
    rw [fracNodeSecondsTotalGpu, ← sum_map_div gpuC fracNodeSecGpu SECS_PER_HOUR]
    simp only [List.append_nil, List.nil_append, List.map_map]
    rfl
  · rw [classTotal_eq]
    unfold usageRowsNode
    rw [List.filter_append, List.filter_append,
      filter_mapP_nt_ne (fun p => UsageRow.mk p.1.Account "standard" (fracNodeSecDef p / SECS_PER_HOUR)) _ _
        (fun p => by simp),
      filter_mapP_nt_ne (fun p => UsageRow.mk p.1.Account "gpu" (fracNodeSecGpu p / SECS_PER_HOUR)) _ _
        (fun p => by simp),
      filter_mapP_nt_eq (fun p => UsageRow.mk p.1.Account "bigmem" (fracNodeSecBm p / SECS_PER_HOUR))
        bmC "bigmem" (fun p => rfl)]
    rw [fracNodeSecondsTotalBm, ← sum_map_div bmC fracNodeSecBm SECS_PER_HOUR]
    simp only [List.append_nil, List.nil_append, List.map_map]
    rfl
  · intro nt
    simp [classTotalByAccount, accountsOf, groupQty]

/-- C2 counterexample: under BY_RESOURCE the account aggregator builds
no usage table (lines 673-674), so for a job set with one standard job
of 10 CPU-seconds the sum over accounts of the consumption attributed
to the standard class is 0, while the calculator's standard-class total
(`cpuSecondsTotal`, the `CPUseconds` sum of `utilization_def`) is 10 —
the claimed equality fails for this accounting method. -/
theorem usage_by_resource_no_aggregation_cex :
    usageRowsOf UtilMethod.BY_RESOURCE [jw1] [] [] [] [] [] = [] ∧
    classTotalByAccount (usageRowsOf UtilMethod.BY_RESOURCE [jw1] [] [] [] [] [])
      "standard" = 0 ∧
    cpuSecondsTotal [jw1] = 10 ∧
    (0 : ℚ) ≠ 10 := by
  refine ⟨rfl, ?_, ?_, by norm_num⟩
  · simp [usageRowsOf, classTotalByAccount, accountsOf, groupQty]
  · norm_num [cpuSecondsTotal, jw1]

/-- C3: for every numeric amount `a`, the unit converter maps suffix K to
`a / 1048576` GiB, M to `a / 1024` GiB, G to `a` GiB, T to `1024 * a`
GiB, and the malformed-data placeholder suffix to `a` GiB (scale factor
1) without raising an error. -/
theorem convert_to_GiB_unit_table (a : ℚ) :
    convert_to_GiB a 'K' = some (a / 1048576) ∧
    convert_to_GiB a 'M' = some (a / 1024) ∧
    convert_to_GiB a 'G' = some a ∧
    convert_to_GiB a 'T' = some (1024 * a) ∧
    convert_to_GiB a '?' = some a := by
  refine ⟨?_, ?_, ?_, ?_, ?_⟩ <;>
      simp [convert_to_GiB, unit_dict, KIBI, MEBI, GIBI, TEBI] <;>
      ring

/-- C10: for every memory string whose final character is none of K, M,
G, T or the placeholder, the unit converter raises a `KeyError` (returns
no value); the non-throwing tolerance applies only to the placeholder. -/
theorem convert_to_GiB_unknown_suffix (a : ℚ) (c : Char)
    (hK : c ≠ 'K') (hM : c ≠ 'M') (hG : c ≠ 'G') (hT : c ≠ 'T') (hQ : c ≠ '?') :
    convert_to_GiB a c = none := by
  simp [convert_to_GiB, unit_dict, hK, hM, hG, hT, hQ]

/-- Witness for C10 at the concrete input `12` with suffix `3` (a purely
numeric string, whose last character is parsed as the unit). -/
theorem convert_to_GiB_unknown_suffix_witness :
    ('3' ≠ 'K' ∧ '3' ≠ 'M' ∧ '3' ≠ 'G' ∧ '3' ≠ 'T' ∧ '3' ≠ '?') ∧
    convert_to_GiB 12 '3' = none :=
  ⟨by decide,
    convert_to_GiB_unknown_suffix 12 '3' (by decide) (by decide) (by decide) (by decide)
      (by decide)⟩

/-- C4: under BY_NODE the fractional node of every job is the maximum of
the applicable ratios (it equals one of them and dominates each), never
their sum; and a standard-partition job requesting 48 of 48 cores and 10
of 189 GiB yields fractional node exactly 1. -/
theorem fracNode_max_rule :
    (∀ cpus memQ : ℚ,
      (fracNodeDef cpus memQ = cpus / CPUS_PER_NODE_def ∨
        fracNodeDef cpus memQ = memQ / MEM_PER_NODE_def) ∧
      cpus / CPUS_PER_NODE_def ≤ fracNodeDef cpus memQ ∧
      memQ / MEM_PER_NODE_def ≤ fracNodeDef cpus memQ) ∧
    (∀ cpus memQ gpus : ℚ,
      (fracNodeGpu cpus memQ gpus = cpus / CPUS_PER_NODE_gpu ∨
        fracNodeGpu cpus memQ gpus = memQ / MEM_PER_NODE_gpu ∨
        fracNodeGpu cpus memQ gpus = gpus / GPUS_PER_NODE) ∧
      cpus / CPUS_PER_NODE_gpu ≤ fracNodeGpu cpus memQ gpus ∧
      memQ / MEM_PER_NODE_gpu ≤ fracNodeGpu cpus memQ gpus ∧
      gpus / GPUS_PER_NODE ≤ fracNodeGpu cpus memQ gpus) ∧
    (∀ cpus memQ : ℚ,
      (fracNodeBm cpus memQ = cpus / CPUS_PER_NODE_bm ∨
        fracNodeBm cpus memQ = memQ / MEM_PER_NODE_bm) ∧
      cpus / CPUS_PER_NODE_bm ≤ fracNodeBm cpus memQ ∧
      memQ / MEM_PER_NODE_bm ≤ fracNodeBm cpus memQ) ∧
    fracNodeDef 48 10 = 1 ∧
    fracNodeDef 48 10 ≠ 48 / CPUS_PER_NODE_def + 10 / MEM_PER_NODE_def := by
  have h1 : fracNodeDef 48 10 = 1 := by
    rw [fracNodeDef, max_eq_left]
    · norm_num [CPUS_PER_NODE_def]
    · norm_num [CPUS_PER_NODE_def, MEM_PER_NODE_def]
  refine ⟨?_, ?_, ?_, h1, ?_⟩
  · intro cpus memQ
    exact ⟨max_choice _ _, le_max_left _ _, le_max_right _ _⟩
  · intro cpus memQ gpus
    refine ⟨?_, ?_, ?_, ?_⟩
    · rcases max_choice (max (cpus / CPUS_PER_NODE_gpu) (memQ / MEM_PER_NODE_gpu))
        (gpus / GPUS_PER_NODE) with h | h
      · rcases max_choice (cpus / CPUS_PER_NODE_gpu) (memQ / MEM_PER_NODE_gpu) with h2 | h2
        · exact Or.inl (by rw [fracNodeGpu, h, h2])
        · exact Or.inr (Or.inl (by rw [fracNodeGpu, h, h2]))
      · exact Or.inr (Or.inr (by rw [fracNodeGpu, h]))
    · exact le_trans (le_max_left _ _) (le_max_left _ _)
    · exact le_trans (le_max_right _ _) (le_max_left _ _)
    · exact le_max_right _ _
  · intro cpus memQ
    exact ⟨max_choice _ _, le_max_left _ _, le_max_right _ _⟩
  · rw [h1]
    norm_num [CPUS_PER_NODE_def, MEM_PER_NODE_def]

/-- C5: partition classification — jobs with raw partition name
`def` or `long` form the standard class, `gpu` or `gpulong` the gpu
class, and exactly the `bm` jobs the bigmem class; a job matching none
of the five names is excluded from all three class subsets (without
error), and no `long` or `gpulong` job ever reaches the bigmem subset. -/
theorem partition_classification (jobs : List Job) (j : Job) :
    (j ∈ defSub jobs ↔ j ∈ jobs ∧ (j.Partition = "def" ∨ j.Partition = "long")) ∧
    (j ∈ gpuSub jobs ↔ j ∈ jobs ∧ (j.Partition = "gpu" ∨ j.Partition = "gpulong")) ∧
    (j ∈ bmSub jobs ↔ j ∈ jobs ∧ j.Partition = "bm") ∧
    (j.Partition ≠ "def" → j.Partition ≠ "long" → j.Partition ≠ "gpu" →
      j.Partition ≠ "gpulong" → j.Partition ≠ "bm" →
      j ∉ defSub jobs ∧ j ∉ gpuSub jobs ∧ j ∉ bmSub jobs) ∧
    ((j.Partition = "long" ∨ j.Partition = "gpulong") → j ∉ bmSub jobs) := by
  refine ⟨?_, ?_, ?_, ?_, ?_⟩
  · simp [defSub, List.mem_filter]
  · simp [gpuSub, List.mem_filter]
  · simp [bmSub, List.mem_filter]
  · intro h1 h2 h3 h4 h5
    refine ⟨?_, ?_, ?_⟩ <;> simp [defSub, gpuSub, bmSub, List.mem_filter, h1, h2, h3, h4, h5]
  · rintro (h | h) <;> simp [bmSub, List.mem_filter, h]

/-- Witness for C5: a job in a `maint` partition is excluded from all
three partition-class subsets. -/
theorem partition_classification_witness :
    jmaint ∉ defSub [jmaint] ∧ jmaint ∉ gpuSub [jmaint] ∧ jmaint ∉ bmSub [jmaint] :=
  (partition_classification [jmaint] jmaint).2.2.2.1 (by decide) (by decide) (by decide)
    (by decide) (by decide)

/-- C1 counterexample: for one gpu job with elapsed one hour and billing
48 over a one-day period with no uptime override, BY_BILLING reports a
utilization of `25 / 258` percent (about 0.0969), not 2.3256: the code
divides the summed job SU (48) by 24 hours-per-day before normalizing,
so the displayed allocated quantity is 2 SU, not 48 SU. -/
theorem gpu_billing_scenario_cex :
    utilization_gpu [jgpu0] none 86400 UtilMethod.BY_BILLING
      = Except.ok (NpFloat.fin (25 / 258)) ∧
    (25 : ℚ) / 258 ≠ 23256 / 10000 ∧
    suTotal (gpuTresFilter [jgpu0]) / HOURS_PER_DAY ≠ 48 := by
  have hf : gpuTresFilter [jgpu0] = [jgpu0] := by
    simp [gpuTresFilter, List.filter_cons]
    decide
  refine ⟨?_, by norm_num, ?_⟩
  · simp only [utilization_gpu, hf]
    norm_num [suTotal, jobSU, jgpu0, SECS_PER_HOUR, HOURS_PER_DAY, nodedays, effectivePeriod,
      NODES_PER_PARTITION_gpu, SECS_PER_DAY, capGpu, BILLING_PER_NODE_gpu, npdiv, npmul100]
  · rw [hf]
    norm_num [suTotal, jobSU, jgpu0, SECS_PER_HOUR, HOURS_PER_DAY]

/-- C1 amended: under BY_BILLING for the gpu class over a one-day period
with no uptime override, the capacity is `172 × 12 × 1 = 2064` SU as the
claim states, but the calculator sums the per-job SU (48 for a one-hour
billing-48 job), divides that sum by 24 to get the allocated quantity
(2), and reports utilization `2 / 2064 × 100 = 25 / 258 ≈ 0.0969`
percent, not 2.3256. -/
theorem gpu_billing_scenario_amended :
    capGpu UtilMethod.BY_BILLING
      (nodedays NODES_PER_PARTITION_gpu (effectivePeriod none 86400)) = 2064 ∧
    suTotal (gpuTresFilter [jgpu0]) = 48 ∧
    suTotal (gpuTresFilter [jgpu0]) / HOURS_PER_DAY = 2 ∧
    utilization_gpu [jgpu0] none 86400 UtilMethod.BY_BILLING
      = Except.ok (NpFloat.fin (25 / 258)) := by
  have hf : gpuTresFilter [jgpu0] = [jgpu0] := by
    simp [gpuTresFilter, List.filter_cons]
    decide
  refine ⟨?_, ?_, ?_, ?_⟩
  · norm_num [capGpu, nodedays, effectivePeriod, NODES_PER_PARTITION_gpu, SECS_PER_DAY,
      BILLING_PER_NODE_gpu]
  · rw [hf]
    norm_num [suTotal, jobSU, jgpu0, SECS_PER_HOUR]
  · rw [hf]
    norm_num [suTotal, jobSU, jgpu0, SECS_PER_HOUR, HOURS_PER_DAY]
  · simp only [utilization_gpu, hf]
    norm_num [suTotal, jobSU, jgpu0, SECS_PER_HOUR, HOURS_PER_DAY, nodedays, effectivePeriod,
      NODES_PER_PARTITION_gpu, SECS_PER_DAY, capGpu, BILLING_PER_NODE_gpu, npdiv, npmul100]

/-- C6 counterexample: a bigmem job that requested zero memory (`ReqMem`
of `0G`, converted to 0 GiB) is not excluded from the bigmem sums — the
claim would make the class total empty (utilization 0), but under
BY_NODE the job contributes its CPU-bound fractional node and the code
reports 50 percent for one such full-CPU one-day job over a one-day
period. -/
theorem bm_zero_mem_included_cex :
    memGiB jbm0 = Except.ok 0 ∧
    utilization_bm [jbm0] none 86400 UtilMethod.BY_NODE = Except.ok (NpFloat.fin 50) ∧
    (50 : ℚ) ≠ 0 := by
  have hc : convertMems [jbm0] = Except.ok [(jbm0, 0)] := by
    simp [convertMems, memGiB, convert_to_GiB, unit_dict, jbm0, GIBI]
  refine ⟨?_, ?_, by norm_num⟩
  · simp [memGiB, convert_to_GiB, unit_dict, jbm0, GIBI]
  · simp only [utilization_bm, hc]
    norm_num [fracNodeSecondsTotalBm, fracNodeSecBm, fracNodeBm, jbm0, CPUS_PER_NODE_bm,
      MEM_PER_NODE_bm, SECS_PER_DAY, nodedays, effectivePeriod, NODES_PER_PARTITION_bm,
      capBm, npdiv, npmul100]

/-- C6 amended: the gpu class excludes exactly the jobs whose `ReqTRES`
lacks a `gres/gpu=` entry (under every method, since the filter precedes
the method branch), and such a job still enters the other classes'
subsets, which are computed from the unfiltered cleaned dataset; the
bigmem class applies no characteristic-resource exclusion — every bm row
(converted memory included, even 0) contributes its term to the bigmem
memory-seconds and fractional-node-seconds sums. -/
theorem characteristic_resource_exclusion_amended (jobs : List Job) (j : Job) :
    (j ∈ gpuTresFilter jobs ↔ j ∈ jobs ∧ strContains j.ReqTRES "gres/gpu=" = true) ∧
    (strContains j.ReqTRES "gres/gpu=" = false → j ∉ gpuTresFilter jobs) ∧
    (j ∈ jobs → j.Partition = "bm" → j ∈ bmSub jobs) ∧
    (j ∈ jobs → (j.Partition = "def" ∨ j.Partition = "long") → j ∈ defSub jobs) ∧
    (∀ (mq : ℚ) (rest : List (Job × ℚ)),
      fracNodeSecondsTotalBm ((j, mq) :: rest)
        = j.Elapsed * fracNodeBm j.ReqCPUS mq + fracNodeSecondsTotalBm rest) ∧
    (∀ (mq : ℚ) (rest : List (Job × ℚ)),
      memSecondsTotal ((j, mq) :: rest) = j.Elapsed * mq + memSecondsTotal rest) := by
  refine ⟨?_, ?_, ?_, ?_, ?_, ?_⟩
  · simp [gpuTresFilter, List.mem_filter]
  · intro h
    simp [gpuTresFilter, List.mem_filter, h]
  · intro hj hp
    simp [bmSub, List.mem_filter, hj, hp]
  · intro hj hp
    rcases hp with h | h <;> simp [defSub, List.mem_filter, hj, h]
  · intro mq rest
    simp [fracNodeSecondsTotalBm, fracNodeSecBm]
  · intro mq rest
    simp [memSecondsTotal]

/-- Witness for the amended C6: the zero-memory bm job (whose `ReqTRES`
has no `gres/gpu=` entry) is excluded from the gpu subset but present in
the bigmem subset. -/
theorem characteristic_resource_exclusion_amended_witness :
    strContains jbm0.ReqTRES "gres/gpu=" = false ∧
    jbm0 ∉ gpuTresFilter [jbm0] ∧
    jbm0 ∈ bmSub [jbm0] :=
  ⟨by decide,
    (characteristic_resource_exclusion_amended [jbm0] jbm0).2.1 (by decide),
    (characteristic_resource_exclusion_amended [jbm0] jbm0).2.2.1
      (List.mem_cons_self jbm0 []) (by decide)⟩

/-- C9 counterexample: the BY_RESOURCE bigmem capacity is computed from
a hard-coded 1546 GiB per node (2 nodes), which differs from the static
`MEM_PER_NODE` descriptor value of 1510 GiB used for the fractional-node
denominator, so the methods do not share one memory-per-node value. -/
theorem bm_mem_per_node_mismatch_cex :
    bmMaxMemseconds 86400 = 2 * 1546 * 86400 ∧
    MEM_PER_NODE_bm = 1510 ∧
    bmMaxMemseconds 86400 ≠ NODES_PER_PARTITION_bm * MEM_PER_NODE_bm * 86400 := by
  refine ⟨rfl, rfl, ?_⟩
  norm_num [bmMaxMemseconds, NODES_PER_PARTITION_bm, MEM_PER_NODE_bm]

/-- C9 amended: the bigmem fractional-node denominator (BY_NODE) uses
the static `MEM_PER_NODE` value 1510 GiB, while the BY_RESOURCE bigmem
capacity hard-codes 1546 GiB per node; the two memory-per-node values
differ, so the accounting methods do not use one shared descriptor. -/
theorem bm_mem_per_node_values (periodSecs cpus memQ : ℚ) :
    capBm UtilMethod.BY_RESOURCE periodSecs = 2 * 1546 * periodSecs ∧
    fracNodeBm cpus memQ = max (cpus / 48) (memQ / 1510) ∧
    MEM_PER_NODE_bm = 1510 ∧
    (1546 : ℚ) ≠ 1510 := by
  exact ⟨rfl, rfl, rfl, by norm_num⟩

/-- A `memGiB` failure is precisely the dict `KeyError` raised by
`convert_to_GiB` on an unknown suffix. -/
theorem memGiB_error_msg (j : Job) (e : String) (h : memGiB j = Except.error e) :
    e = "KeyError" := by
  unfold memGiB at h
  cases hc : convert_to_GiB j.ReqMemAmt j.ReqMemUnit with
  | some v =>
    rw [hc] at h
    simp at h
  | none =>
    rw [hc] at h
    simp at h
    exact h.symm

/-- `convertMems` fails only by propagating a `KeyError` from a row's
memory-unit conversion. -/
theorem convertMems_error_msg (jobs : List Job) :
    ∀ msg : String, convertMems jobs = Except.error msg → msg = "KeyError" := by
  induction jobs with
  | nil =>
    intro msg h
    simp [convertMems] at h
  | cons j t ih =>
    intro msg h
    simp only [convertMems] at h
    cases hm : memGiB j with
    | error e =>
      rw [hm] at h
      simp at h
      exact h ▸ memGiB_error_msg j e hm
    | ok m =>
      rw [hm] at h
      cases hc : convertMems t with
      | error e2 =>
        rw [hc] at h
        simp at h
        exact h ▸ ih e2 hc
      | ok c =>
        rw [hc] at h
        simp at h

/-- With a zero divisor the scaled division result is an IEEE special
value, never a finite one. -/
theorem npmul100_npdiv_zero_ne_fin (a q : ℚ) :
    npmul100 (npdiv a 0) ≠ NpFloat.fin q := by
  unfold npdiv
  rw [if_pos rfl]
  by_cases h0 : a = 0
  · rw [if_pos h0]
    simp [npmul100]
  · rw [if_neg h0]
    by_cases hp : 0 < a
    · rw [if_pos hp]
      simp [npmul100]
    · rw [if_neg hp]
      simp [npmul100]

/-- C7 counterexample: with a zero-length reporting period the standard
class BY_RESOURCE capacity is zero, yet the computation does not raise:
the numerators are numpy.float64 `Series.sum()` scalars, whose division
by zero only emits a RuntimeWarning, so for an empty job set the code
silently returns NaN (a 0/0) and for a job set with positive
CPU-seconds it silently returns +inf — a non-error utilization value
either way, contradicting the claimed fatal error. -/
theorem zero_capacity_silent_cex :
    capDef UtilMethod.BY_RESOURCE
      (nodedays NODES_PER_PARTITION_def (effectivePeriod none 0)) = 0 ∧
    utilization_def [] none 0 UtilMethod.BY_RESOURCE = Except.ok NpFloat.nan ∧
    utilization_def [jw1] none 0 UtilMethod.BY_RESOURCE = Except.ok NpFloat.pinf := by
  refine ⟨?_, ?_, ?_⟩
  · norm_num [capDef, nodedays, effectivePeriod, NODES_PER_PARTITION_def, SECS_PER_DAY,
      CPUS_PER_NODE_def]
  · norm_num [utilization_def, cpuSecondsTotal, capDef, nodedays, effectivePeriod,
      NODES_PER_PARTITION_def, SECS_PER_DAY, CPUS_PER_NODE_def, npdiv, npmul100]
  · norm_num [utilization_def, cpuSecondsTotal, jw1, capDef, nodedays, effectivePeriod,
      NODES_PER_PARTITION_def, SECS_PER_DAY, CPUS_PER_NODE_def, npdiv, npmul100]

/-- C7 amended: a zero computed capacity is not raised as an error —
the numpy.float64 division silently yields an IEEE infinity or NaN, so
for every partition class and every accounting method the computation
never returns a finite utilization value under a zero capacity; and the
only exception any of the three computations can end in is the
`KeyError` of the memory-unit conversion, never a division error. -/
theorem zero_capacity_silent (jobs : List Job) (uptimeSecs : Option ℚ)
    (calPeriodSecs : ℚ) (m : UtilMethod) :
    (capDef m (nodedays NODES_PER_PARTITION_def (effectivePeriod uptimeSecs calPeriodSecs)) = 0 →
      ∀ q : ℚ, utilization_def jobs uptimeSecs calPeriodSecs m ≠ Except.ok (NpFloat.fin q)) ∧
    (capGpu m (nodedays NODES_PER_PARTITION_gpu (effectivePeriod uptimeSecs calPeriodSecs)) = 0 →
      ∀ q : ℚ, utilization_gpu jobs uptimeSecs calPeriodSecs m ≠ Except.ok (NpFloat.fin q)) ∧
    (capBm m (effectivePeriod uptimeSecs calPeriodSecs) = 0 →
      ∀ q : ℚ, utilization_bm jobs uptimeSecs calPeriodSecs m ≠ Except.ok (NpFloat.fin q)) ∧
    (∀ msg : String, utilization_def jobs uptimeSecs calPeriodSecs m = Except.error msg →
      msg = "KeyError") ∧
    (∀ msg : String, utilization_gpu jobs uptimeSecs calPeriodSecs m = Except.error msg →
      msg = "KeyError") ∧
    (∀ msg : String, utilization_bm jobs uptimeSecs calPeriodSecs m = Except.error msg →
      msg = "KeyError") := by
  refine ⟨?_, ?_, ?_, ?_, ?_, ?_⟩
  · intro h q hq
    cases m with
    | BY_RESOURCE =>
      simp only [utilization_def] at hq
      rw [h] at hq
      injection hq with hq2
      exact npmul100_npdiv_zero_ne_fin _ q hq2
    | BY_NODE =>
      cases hc : convertMems jobs with
      | error e =>
        simp only [utilization_def, hc] at hq
        exact Except.noConfusion hq
      | ok c =>
        simp only [utilization_def, hc] at hq
        rw [h] at hq
        injection hq with hq2
        exact npmul100_npdiv_zero_ne_fin _ q hq2
    | BY_BILLING =>
      simp only [utilization_def] at hq
      rw [h] at hq
      injection hq with hq2
      exact npmul100_npdiv_zero_ne_fin _ q hq2
  · intro h q hq
    cases m with
    | BY_RESOURCE =>
      simp only [utilization_gpu] at hq
      rw [h] at hq
      injection hq with hq2
      exact npmul100_npdiv_zero_ne_fin _ q hq2
    | BY_NODE =>
      cases hc : convertMems (gpuTresFilter jobs) with
      | error e =>
        simp only [utilization_gpu, hc] at hq
        exact Except.noConfusion hq
      | ok c =>
        simp only [utilization_gpu, hc] at hq
        rw [h] at hq
        injection hq with hq2
        exact npmul100_npdiv_zero_ne_fin _ q hq2
    | BY_BILLING =>
      simp only [utilization_gpu] at hq
      rw [h] at hq
      injection hq with hq2
      exact npmul100_npdiv_zero_ne_fin _ q hq2
  · intro h q hq
    cases hc : convertMems jobs with
    | error e =>
      simp only [utilization_bm, hc] at hq
      exact Except.noConfusion hq
    | ok c =>
      cases m with
      | BY_RESOURCE =>
        simp only [utilization_bm, hc] at hq
        rw [h] at hq
        injection hq with hq2
        exact npmul100_npdiv_zero_ne_fin _ q hq2
      | BY_NODE =>
        simp only [utilization_bm, hc] at hq
        rw [h] at hq
        injection hq with hq2
        exact npmul100_npdiv_zero_ne_fin _ q hq2
      | BY_BILLING =>
        simp only [utilization_bm, hc] at hq
        rw [h] at hq
        injection hq with hq2
        exact npmul100_npdiv_zero_ne_fin _ q hq2
  · intro msg hmsg
    cases m with
    | BY_RESOURCE =>
      simp only [utilization_def] at hmsg
      exact Except.noConfusion hmsg
    | BY_NODE =>
      cases hc : convertMems jobs with
      | error e =>
        simp only [utilization_def, hc] at hmsg
        injection hmsg with h2
        exact h2 ▸ convertMems_error_msg jobs e hc
      | ok c =>
        simp only [utilization_def, hc] at hmsg
        exact Except.noConfusion hmsg
    | BY_BILLING =>
      simp only [utilization_def] at hmsg
      exact Except.noConfusion hmsg
  · intro msg hmsg
    cases m with
    | BY_RESOURCE =>
      simp only [utilization_gpu] at hmsg
      exact Except.noConfusion hmsg
    | BY_NODE =>
      cases hc : convertMems (gpuTresFilter jobs) with
      | error e =>
        simp only [utilization_gpu, hc] at hmsg
        injection hmsg with h2
        exact h2 ▸ convertMems_error_msg (gpuTresFilter jobs) e hc
      | ok c =>
        simp only [utilization_gpu, hc] at hmsg
        exact Except.noConfusion hmsg
    | BY_BILLING =>
      simp only [utilization_gpu] at hmsg
      exact Except.noConfusion hmsg
  · intro msg hmsg
    cases hc : convertMems jobs with
    | error e =>
      simp only [utilization_bm, hc] at hmsg
      injection hmsg with h2
      exact h2 ▸ convertMems_error_msg jobs e hc
    | ok c =>
      cases m with
      | BY_RESOURCE =>
        simp only [utilization_bm, hc] at hmsg
        exact Except.noConfusion hmsg
      | BY_NODE =>
        simp only [utilization_bm, hc] at hmsg
        exact Except.noConfusion hmsg
      | BY_BILLING =>
        simp only [utilization_bm, hc] at hmsg
        exact Except.noConfusion hmsg

/-- Witness for the amended C7: with a zero-length period and no
uptime override, all three BY_RESOURCE capacities are zero and none of
the three computations returns the finite utilization 0 — each yields
an IEEE special value instead. -/
theorem zero_capacity_silent_witness :
    (capDef UtilMethod.BY_RESOURCE
        (nodedays NODES_PER_PARTITION_def (effectivePeriod none 0)) = 0 ∧
      capGpu UtilMethod.BY_RESOURCE
        (nodedays NODES_PER_PARTITION_gpu (effectivePeriod none 0)) = 0 ∧
      capBm UtilMethod.BY_RESOURCE (effectivePeriod none 0) = 0) ∧
    utilization_def [] none 0 UtilMethod.BY_RESOURCE ≠ Except.ok (NpFloat.fin 0) ∧
    utilization_gpu [] none 0 UtilMethod.BY_RESOURCE ≠ Except.ok (NpFloat.fin 0) ∧
    utilization_bm [] none 0 UtilMethod.BY_RESOURCE ≠ Except.ok (NpFloat.fin 0) := by
  have h1 : capDef UtilMethod.BY_RESOURCE
      (nodedays NODES_PER_PARTITION_def (effectivePeriod none 0)) = 0 := by
    norm_num [capDef, nodedays, effectivePeriod, NODES_PER_PARTITION_def, SECS_PER_DAY,
      CPUS_PER_NODE_def]
  have h2 : capGpu UtilMethod.BY_RESOURCE
      (nodedays NODES_PER_PARTITION_gpu (effectivePeriod none 0)) = 0 := by
    norm_num [capGpu, nodedays, effectivePeriod, NODES_PER_PARTITION_gpu, SECS_PER_DAY,
      GPUS_PER_NODE]
  have h3 : capBm UtilMethod.BY_RESOURCE (effectivePeriod none 0) = 0 := by
    norm_num [capBm, bmMaxMemseconds, effectivePeriod]
  exact ⟨⟨h1, h2, h3⟩,
    (zero_capacity_silent [] none 0 UtilMethod.BY_RESOURCE).1 h1 0,
    (zero_capacity_silent [] none 0 UtilMethod.BY_RESOURCE).2.1 h2 0,
    (zero_capacity_silent [] none 0 UtilMethod.BY_RESOURCE).2.2.1 h3 0⟩

/-- The deduplicated list is a sublist of the input (rows are only ever
dropped, never reordered or invented). -/
theorem dedupAux_sublist (seen : List String) (l : List Job) :
    List.Sublist (dedupAux seen l) l := by
  induction l generalizing seen with
  | nil => simp [dedupAux]
  | cons j t ih =>
    simp only [dedupAux]
    by_cases hj : j.JobID ∈ seen
    · rw [if_pos hj]
      exact (ih seen).cons j
    · rw [if_neg hj]
      exact (ih (j.JobID :: seen)).cons₂ j

/-- Membership characterization of `dedupAux`: a job is kept exactly
when its identifier is not among the already-seen ones and it is the
first occurrence of its identifier in the remaining input. -/
theorem dedupAux_mem (l : List Job) (seen : List String) (j : Job) :
    j ∈ dedupAux seen l ↔
      j.JobID ∉ seen ∧ l.find? (fun x => x.JobID == j.JobID) = some j := by
  induction l generalizing seen with
  | nil => simp [dedupAux]
  | cons r t ih =>
    simp only [dedupAux]
    by_cases hid : r.JobID = j.JobID
    · have hjid : j.JobID = r.JobID := hid.symm
      by_cases hr : r.JobID ∈ seen
      · rw [if_pos hr, ih seen]
        have hjs : j.JobID ∈ seen := hjid ▸ hr
        simp [hjs]
      · rw [if_neg hr]
        rw [List.mem_cons, ih (r.JobID :: seen),
          @List.find?_cons_of_pos _ (fun x => x.JobID == j.JobID) r t (by simp [hid])]
        constructor
        · rintro (hjr | ⟨hns, _⟩)
          · refine ⟨?_, by rw [hjr]⟩
            intro hh
            exact hr (hjid ▸ hh)
          · exact absurd (List.mem_cons.mpr (Or.inl hjid)) hns
        · rintro ⟨hns, hrj⟩
          exact Or.inl (Option.some_injective _ hrj).symm
    · rw [@List.find?_cons_of_neg _ (fun x => x.JobID == j.JobID) r t (by simp [hid])]
      by_cases hr : r.JobID ∈ seen
      · rw [if_pos hr, ih seen]
      · rw [if_neg hr, List.mem_cons, ih (r.JobID :: seen)]
        constructor
        · rintro (hjr | ⟨hns, hf⟩)
          · exact absurd (congrArg Job.JobID hjr).symm hid
          · exact ⟨fun hh => hns (List.mem_cons_of_mem _ hh), hf⟩
        · rintro ⟨hns, hf⟩
          refine Or.inr ⟨?_, hf⟩
          intro hh
          rcases List.mem_cons.mp hh with hh1 | hh2
          · exact hid hh1.symm
          · exact hns hh2

/-- The identifiers of the deduplicated list are pairwise distinct. -/
theorem dedupAux_ids_nodup (l : List Job) (seen : List String) :
    ((dedupAux seen l).map Job.JobID).Nodup := by
  induction l generalizing seen with
  | nil => simp [dedupAux]
  | cons r t ih =>
    simp only [dedupAux]
    by_cases hr : r.JobID ∈ seen
    · rw [if_pos hr]
      exact ih seen
    · rw [if_neg hr]
      simp only [List.map_cons, List.nodup_cons]
      refine ⟨?_, ih (r.JobID :: seen)⟩
      intro hmem
      rcases List.mem_map.mp hmem with ⟨x, hx, hxid⟩
      have hch := (dedupAux_mem t (r.JobID :: seen) x).mp hx
      exact hch.1 (by simp [hxid])

/-- On an input whose identifiers are pairwise distinct and disjoint
from the seen set, `dedupAux` is the identity. -/
theorem dedupAux_of_nodup (l : List Job) (seen : List String)
    (hd : ∀ x ∈ l, x.JobID ∉ seen) (hnd : (l.map Job.JobID).Nodup) :
    dedupAux seen l = l := by
  induction l generalizing seen with
  | nil => rfl
  | cons r t ih =>
    simp only [dedupAux]
    rw [if_neg (hd r (List.mem_cons_self r t))]
    have hpair : (∀ x ∈ t, ¬ x.JobID = r.JobID) ∧ (t.map Job.JobID).Nodup := by
      simpa using hnd
    congr 1
    refine ih (r.JobID :: seen) ?_ hpair.2
    intro x hx
    intro hh
    rcases List.mem_cons.mp hh with hh1 | hh2
    · exact hpair.1 x hx hh1
    · exact hd x (List.mem_cons_of_mem _ hx) hh2

/-- C8: deduplication keeps, for each job identifier, exactly the first
occurrence in input order (the result is a sublist of the input whose
identifiers are pairwise distinct, and a job belongs to it exactly when
it is the first occurrence of its identifier), and on a record set whose
identifiers are already unique it returns the input unchanged. -/
theorem dedup_keeps_first_and_idempotent (l : List Job) :
    List.Sublist (dedupJobs l) l ∧
    ((dedupJobs l).map Job.JobID).Nodup ∧
    (∀ j : Job, j ∈ dedupJobs l ↔ l.find? (fun x => x.JobID == j.JobID) = some j) ∧
    ((l.map Job.JobID).Nodup → dedupJobs l = l) := by
  refine ⟨dedupAux_sublist [] l, dedupAux_ids_nodup l [], ?_, ?_⟩
  · intro j
    rw [dedupJobs, dedupAux_mem l [] j]
    simp
  · intro h
    exact dedupAux_of_nodup l [] (by simp) h

/-- Witness for C8: a two-job record set with distinct identifiers is
returned unchanged by deduplication. -/
theorem dedup_keeps_first_and_idempotent_witness :
    ([jw1, jw2].map Job.JobID).Nodup ∧ dedupJobs [jw1, jw2] = [jw1, jw2] :=
  ⟨by decide, (dedup_keeps_first_and_idempotent [jw1, jw2]).2.2.2 (by decide)⟩
